import Mathlib

/-!
Shallow embedding of the research-assistant RAG engine
(`src/assistant.py`, class `ResearchAssistant`) and its web glue
(`src/app.py`: `ensure_ready`, `_extract_sources`).

External, fallible collaborators (PDF loader, FAISS load/build, disk
persistence, LLM invocation) are modelled by an `Env` oracle supplying
their outcomes; the Python methods become pure Lean functions from
(environment, engine state) to (result, new state), with exception
control-flow made explicit via `Except`-valued outcomes.
-/

namespace ResearchAssistant

/-- The `metadata` dict of a langchain `Document`, restricted to the four
keys the program reads (`source_file`, `source`, `page`, `page_number`).
`none` models an absent key. -/
structure Metadata where
  source_file : Option String
  source      : Option String
  page        : Option Int
  page_number : Option Int
deriving Repr, DecidableEq

/-- A retrieved / loaded langchain document. `malformed` stands for any
chunk whose metadata access or page-number conversion raises at runtime
(the `except: continue` case of `_extract_sources`). -/
inductive Document where
  | valid (meta : Metadata)
  | malformed
deriving Repr, DecidableEq

/-- An in-memory FAISS vector store, identified by the chunks it indexes. -/
structure VStore where
  chunks : List Document
deriving Repr, DecidableEq

/-- A configured RetrievalQA chain: a retriever over a vector store with a
fixed `k` (`search_kwargs = k`). -/
structure QAChain where
  store : VStore
  k : Nat
deriving Repr, DecidableEq

/-- The mutable state of a `ResearchAssistant` instance: the fields
`rebuild_index`, `top_k`, `vectorstore`, `qa_chain`, `documents_data`
(a Python dict, modelled as an insertion-ordered association list). -/
structure RA where
  rebuild_index : Bool
  top_k : Nat
  vectorstore : Option VStore
  qa_chain : Option QAChain
  documents_data : List (String × List Document)
deriving Repr, DecidableEq

/-- The persisted index directory: contents of `index.faiss` and
`index.pkl` (`none` = file does not exist). -/
structure IndexDir where
  faiss : Option VStore
  pkl : Option VStore
deriving Repr, DecidableEq

/-- Oracle for the external collaborators: the docs folder listing with
per-file load outcomes (`PyPDFLoader.load`), the outcome of
`FAISS.load_local`, the splitter, `FAISS.from_documents` (embedding +
index creation), `save_local`, and `qa_chain.invoke`. -/
structure Env where
  /-- The name-sorted docs-folder listing, as produced by
  `sorted(self.docs_folder.glob("*.pdf"))`, paired with each file's
  `PyPDFLoader.load` outcome. -/
  pdfFiles : List (String × Except String (List Metadata))
  loadLocal : Except String VStore
  split : List Document → List Document
  fromDocuments : List Document → Except String VStore
  saveLocal : Except String Unit
  invoke : String → Except String (String × List Document)

/-! ### `_extract_sources` (src/app.py) -/

/-- Python's `a or b` for an optional string `a` and a string default:
`None` and `""` are falsy. -/
def truthyOr (a : Option String) (dflt : String) : String :=
  match a with
  | some s => if s = "" then dflt else s
  | none => dflt

/-- The local `src` of `_extract_sources`:
`meta.get("source_file") or meta.get("source") or "未知来源"`. -/
def srcOf (m : Metadata) : String :=
  truthyOr m.source_file (truthyOr m.source "未知来源")

/-- The local `page` of `_extract_sources`: `meta.get("page")`, falling
back to `meta.get("page_number")` only when it `is None`. -/
def pageOf (m : Metadata) : Option Int :=
  match m.page with
  | some p => some p
  | none => m.page_number

/-- The body of the `for d in source_documents` loop of
`_extract_sources`: render one chunk to its display string, `none` when
the chunk is skipped by the `except: continue`. -/
def renderChunk : Document → Option String
  | .malformed => none
  | .valid m =>
    match pageOf m with
    | some p => some (srcOf m ++ " (p." ++ toString (p + 1) ++ ")")
    | none => some (srcOf m)

/-- The dedup loop of `_extract_sources`: `seen` is the Python set,
`uniq` is built in order of first occurrence. -/
def dedupLoop (seen : List String) : List String → List String
  | [] => []
  | s :: rest =>
    if s ∈ seen then dedupLoop seen rest
    else s :: dedupLoop (s :: seen) rest

/-- `_extract_sources(source_documents)` from src/app.py: render every
chunk (skipping malformed ones), then deduplicate preserving first-seen
order. An empty input returns `[]` via the early `if not
source_documents` check. -/
def extract_sources (source_documents : List Document) : List String :=
  if source_documents = [] then []
  else dedupLoop [] (source_documents.filterMap renderChunk)

/-- Specification-side characterisation of a stable first-occurrence
dedup: keep the head, drop its later duplicates, recurse. -/
def stableDedup : List String → List String
  | [] => []
  | x :: xs => x :: stableDedup (xs.filter (fun y => y ≠ x))
termination_by l => l.length
decreasing_by
  simp only [List.length_cons]
  exact Nat.lt_succ_of_le (List.length_filter_le _ _)

/-! ### `load_documents` (src/assistant.py) -/

/-- Python dict assignment `d[k] = v` on an insertion-ordered
association list: update in place when the key exists, else append. -/
def dictInsert (d : List (String × List Document)) (k : String) (v : List Document) :
    List (String × List Document) :=
  if d.any (fun p => p.1 = k) then
    d.map (fun p => if p.1 = k then (k, v) else p)
  else d ++ [(k, v)]

/-- One iteration of the `for pdf in pdf_files` loop of
`load_documents`: on a successful load, stamp `source_file` on every
page, register the pages under the file's name and append them to
`all_docs`; on a load failure, skip the file. -/
def loadFold (acc : List (String × List Document) × List Document)
    (file : String × Except String (List Metadata)) :
    List (String × List Document) × List Document :=
  match file.2 with
  | .error _ => acc
  | .ok pages =>
      let docs := pages.map (fun m => Document.valid { m with source_file := some file.1 })
      (dictInsert acc.1 file.1 docs, acc.2 ++ docs)

/-- `load_documents` from src/assistant.py: walk the name-sorted PDF
listing, load each file (failures are skipped), mutate
`documents_data` per file, and return the flattened page list
(`all_docs`; `[]` when no PDF is found). -/
def load_documents (env : Env) (ra : RA) : RA × List Document :=
  let res := env.pdfFiles.foldl loadFold (ra.documents_data, [])
  ({ ra with documents_data := res.1 }, res.2)

/-! ### `build_or_load_vectorstore` / `setup_qa_chain` (src/assistant.py) -/

/-- Outcome of a `build_or_load_vectorstore` call: the raised exception
or success, the assistant state and index directory afterwards (Python
mutations before a raise persist), and which work was done. -/
structure BuildOutcome where
  result : Except String Unit
  ra : RA
  idx : IndexDir
  attemptedLoad : Bool
  builtFresh : Bool
deriving Repr

/-- The fresh-build tail of `build_or_load_vectorstore`: split the
documents, embed them into a new FAISS store, assign it to
`self.vectorstore`, then persist it with `save_local` (writing both
`index.faiss` and `index.pkl`). -/
def buildFresh (env : Env) (ra : RA) (idx : IndexDir) (documents : List Document)
    (attempted : Bool) : BuildOutcome :=
  match env.fromDocuments (env.split documents) with
  | .error e => ⟨.error e, ra, idx, attempted, true⟩
  | .ok vs =>
    match env.saveLocal with
    | .error e => ⟨.error e, { ra with vectorstore := some vs }, idx, attempted, true⟩
    | .ok _ => ⟨.ok (), { ra with vectorstore := some vs }, ⟨some vs, some vs⟩, attempted, true⟩

/-- `build_or_load_vectorstore(documents)` from src/assistant.py:
reject an empty document list; if both index files exist and
`rebuild_index` is false, try `FAISS.load_local` and return on success;
otherwise (or on load failure) fall through to a fresh build. -/
def build_or_load_vectorstore (env : Env) (ra : RA) (idx : IndexDir)
    (documents : List Document) : BuildOutcome :=
  if documents = [] then
    ⟨.error "没有文档可以构建向量库", ra, idx, false, false⟩
  else
    if idx.faiss.isSome && idx.pkl.isSome && !ra.rebuild_index then
      match env.loadLocal with
      | .ok vs => ⟨.ok (), { ra with vectorstore := some vs }, idx, true, false⟩
      | .error _ => buildFresh env ra idx documents true
    else
      buildFresh env ra idx documents false

/-- `setup_qa_chain` from src/assistant.py: raises when the vector
store is missing, else configures the RetrievalQA chain over the
store's retriever with `k = top_k`. -/
def setup_qa_chain (ra : RA) : Except String RA :=
  match ra.vectorstore with
  | none => .error "向量库未初始化"
  | some vs => .ok { ra with qa_chain := some ⟨vs, ra.top_k⟩ }

/-! ### `ask` / `compare_documents` (src/assistant.py) -/

/-- The dictionary returned by `ask`: either an `error` entry, or the
chain's `result` plus `source_documents`. -/
inductive AskResult where
  | error (msg : String)
  | ok (result : String) (source_documents : List Document)
deriving Repr, DecidableEq

/-- `ask(question)` from src/assistant.py: a structured error when the
QA chain is not configured, a structured error wrapping the exception
when `qa_chain.invoke` raises, else the answer with its sources. -/
def ask (env : Env) (ra : RA) (question : String) : AskResult :=
  match ra.qa_chain with
  | none => .error "QA系统未初始化"
  | some _ =>
    match env.invoke question with
    | .error e => .error ("处理问题时出错: " ++ e)
    | .ok (a, sds) => .ok a sds

/-- The meta-question built by `compare_documents` (after `.strip()`). -/
def compareQuestion (docNames : List String) : String :=
  "我有以下 " ++ toString docNames.length ++ " 篇学术文档：\n" ++
  String.intercalate ", " docNames ++
  "\n\n请基于这些文档的内容，分析并回答：\n\n" ++
  "1. 这些文档研究的核心问题是什么？相似点和不同点？\n" ++
  "2. 这些文档采用了什么研究方法？方法论异同？\n" ++
  "3. 这些文档的研究思路/框架有哪些特点？\n" ++
  "4. 基于这些文档，推荐值得进一步探索的研究问题。\n" ++
  "5. 还有哪些可行的方法或角度？\n\n" ++
  "请尽量引用上下文依据，给出具体、可操作的建议。"

/-- Return type of `compare_documents`: the plain-string sentinel or a
delegated `ask` result. -/
inductive CompareResult where
  | sentinel (msg : String)
  | asked (r : AskResult)
deriving Repr, DecidableEq

/-- `compare_documents` from src/assistant.py: with fewer than two
registered documents return the sentinel string; else build the
meta-question over the registry's key list and delegate to `ask`. -/
def compare_documents (env : Env) (ra : RA) : CompareResult :=
  if ra.documents_data.length < 2 then .sentinel "需要至少2个文档才能进行比较"
  else .asked (ask env ra (compareQuestion (ra.documents_data.map Prod.fst)))

/-! ### `ensure_ready` (src/app.py) -/

/-- Which expensive work an `ensure_ready` call performed:
`ranLoad` = the registry was cleared and `load_documents` ran,
`attemptedIndexLoad` = `FAISS.load_local` was attempted,
`builtIndex` = the fresh split/embed/persist path ran. -/
structure WorkLog where
  ranLoad : Bool
  attemptedIndexLoad : Bool
  builtIndex : Bool
deriving Repr, DecidableEq

/-- The `(ok, reason)` pair returned by `ensure_ready`, together with
the assistant state and index directory afterwards and the work log. -/
structure EnsureResult where
  ok : Bool
  reason : Option String
  ra : RA
  idx : IndexDir
  log : WorkLog
deriving Repr, DecidableEq

/-- The work log of a short-circuited call: nothing ran. -/
def noWork : WorkLog := ⟨false, false, false⟩

/-- The `try/except/finally` tail of `ensure_ready`: given the saved
`prev_rebuild` value and the `build_or_load_vectorstore` outcome `b`,
run `setup_qa_chain`, map any raised exception to the
initialization-failure result, and restore `rebuild_index := prev` on
every path (the `finally`). -/
def ensureBuild (prev : Bool) (b : BuildOutcome) : EnsureResult :=
  match b.result with
  | .error e =>
      ⟨false, some ("初始化失败: " ++ e), { b.ra with rebuild_index := prev }, b.idx,
       ⟨true, b.attemptedLoad, b.builtFresh⟩⟩
  | .ok _ =>
    match setup_qa_chain b.ra with
    | .error e =>
        ⟨false, some ("初始化失败: " ++ e), { b.ra with rebuild_index := prev }, b.idx,
         ⟨true, b.attemptedLoad, b.builtFresh⟩⟩
    | .ok ra3 =>
        ⟨true, none, { ra3 with rebuild_index := prev }, b.idx,
         ⟨true, b.attemptedLoad, b.builtFresh⟩⟩

/-- The non-short-circuit tail of `ensure_ready`, starting from the
result `p` of the registry reload: fail with the no-documents message
when the reload yielded no pages, else set `rebuild_index :=
force_rebuild` for this call only and continue with the index
build/load. -/
def ensureReload (env : Env) (p : RA × List Document) (idx : IndexDir)
    (force_rebuild : Bool) : EnsureResult :=
  if p.2 = [] then
    ⟨false, some "暂无文档，请先上传 PDF。", p.1, idx, ⟨true, false, false⟩⟩
  else
    ensureBuild p.1.rebuild_index
      (build_or_load_vectorstore env { p.1 with rebuild_index := force_rebuild } idx p.2)

/-- `ensure_ready(force_rebuild)` from src/app.py: short-circuit when
not forcing and `qa_chain`, `vectorstore`, `documents_data` are all
truthy; else clear the registry, reload from disk and continue with
`ensureReload`. -/
def ensure_ready (env : Env) (ra : RA) (idx : IndexDir) (force_rebuild : Bool) :
    EnsureResult :=
  if !force_rebuild && ra.qa_chain.isSome && ra.vectorstore.isSome &&
      !ra.documents_data.isEmpty then
    ⟨true, none, ra, idx, noWork⟩
  else
    ensureReload env (load_documents env { ra with documents_data := [] }) idx force_rebuild

/-! ### Concrete fixtures used by witnesses and counterexamples -/

/-- A baseline environment: no files on disk, index load succeeds with
an empty store, identity splitter, embedding succeeds, persistence
succeeds, LLM invocation fails with "down". -/
def env0 : Env :=
  ⟨[], .ok ⟨[]⟩, id, fun cs => .ok ⟨cs⟩, .ok (), fun _ => .error "down"⟩

/-- A freshly constructed assistant: nothing loaded or built. -/
def raEmpty : RA := ⟨false, 4, none, none, []⟩

/-- An empty index directory. -/
def idx0 : IndexDir := ⟨none, none⟩

/-- A fully ready assistant state (QA chain, store and registry set). -/
def raReady : RA :=
  ⟨false, 4, some ⟨[]⟩, some ⟨⟨[]⟩, 4⟩, [("a.pdf", [.valid ⟨some "a.pdf", none, some 0, none⟩])]⟩

/-- Disk with a single PDF that loads successfully but has zero pages. -/
def envZeroPage : Env := { env0 with pdfFiles := [("empty.pdf", .ok [])] }

/-- A metadata record with every key absent. -/
def mEmpty : Metadata := ⟨none, none, none, none⟩

/-- Disk with one PDF (one page) that loads successfully. -/
def envOneFile : Env := { env0 with pdfFiles := [("a.pdf", .ok [mEmpty])] }

/-- A registry holding a stale entry for a file no longer on disk. -/
def raStale : RA := { raEmpty with documents_data := [("stale.pdf", [])] }

/-- Disk with one failing PDF and one good one-page PDF. -/
def envMix : Env :=
  { env0 with pdfFiles := [("bad.pdf", .error "boom"), ("good.pdf", .ok [mEmpty])] }

/-- A registry with a single document. -/
def raOne : RA := { raEmpty with documents_data := [("a.pdf", [])] }

/-- A registry with two documents (QA chain not configured). -/
def raTwo : RA := { raEmpty with documents_data := [("a.pdf", []), ("b.pdf", [])] }

/-- An index directory with both persisted files present. -/
def idxBuilt : IndexDir := ⟨some ⟨[]⟩, some ⟨[]⟩⟩

/-- The registry entry that a successful load of one listed file
creates (`none` for a failed load): the file's pages, each stamped with
`source_file := the file name`, keyed by that name. -/
def loadedEntry (f : String × Except String (List Metadata)) :
    Option (String × List Document) :=
  match f.2 with
  | .ok pages =>
      some (f.1, pages.map (fun m => Document.valid { m with source_file := some f.1 }))
  | .error _ => none

/-- Whether a `FAISS.load_local` outcome is a success. -/
def loadOk : Except String VStore → Bool
  | .ok _ => true
  | .error _ => false

/-! ## Helper lemmas -/

theorem buildFresh_frame (env : Env) (ra : RA) (idx : IndexDir)
    (documents : List Document) (attempted : Bool) :
    (buildFresh env ra idx documents attempted).ra
        = { ra with
            vectorstore := (buildFresh env ra idx documents attempted).ra.vectorstore } ∧
      (buildFresh env ra idx documents attempted).attemptedLoad = attempted ∧
      (buildFresh env ra idx documents attempted).builtFresh = true := by
  unfold buildFresh
  cases h1 : env.fromDocuments (env.split documents) with
  | error e => exact ⟨rfl, rfl, rfl⟩
  | ok vs =>
    cases h2 : env.saveLocal with
    | error e2 => exact ⟨rfl, rfl, rfl⟩
    | ok u => exact ⟨rfl, rfl, rfl⟩

theorem bol_frame (env : Env) (ra : RA) (idx : IndexDir) (documents : List Document) :
    (build_or_load_vectorstore env ra idx documents).ra
      = { ra with
          vectorstore := (build_or_load_vectorstore env ra idx documents).ra.vectorstore } := by
  unfold build_or_load_vectorstore
  by_cases hd : documents = []
  · rw [if_pos hd]
  · rw [if_neg hd]
    by_cases hc : (idx.faiss.isSome && idx.pkl.isSome && !ra.rebuild_index) = true
    · rw [if_pos hc]
      cases h : env.loadLocal with
      | ok vs => rfl
      | error e => exact (buildFresh_frame env ra idx documents true).1
    · rw [if_neg hc]
      exact (buildFresh_frame env ra idx documents false).1

theorem buildFresh_ok_vectorstore (env : Env) (ra : RA) (idx : IndexDir)
    (documents : List Document) (attempted : Bool)
    (h : (buildFresh env ra idx documents attempted).result = .ok ()) :
    (buildFresh env ra idx documents attempted).ra.vectorstore.isSome := by
  unfold buildFresh at h ⊢
  cases h1 : env.fromDocuments (env.split documents) with
  | error e => simp only [h1] at h; exact Except.noConfusion h
  | ok vs =>
    simp only [h1] at h ⊢
    cases h2 : env.saveLocal with
    | error e2 => simp only [h2] at h; exact Except.noConfusion h
    | ok u => simp only [h2]; rfl

theorem bol_ok_vectorstore (env : Env) (ra : RA) (idx : IndexDir)
    (documents : List Document)
    (h : (build_or_load_vectorstore env ra idx documents).result = .ok ()) :
    (build_or_load_vectorstore env ra idx documents).ra.vectorstore.isSome := by
  unfold build_or_load_vectorstore at h ⊢
  by_cases hd : documents = []
  · rw [if_pos hd] at h
    simp at h
  · rw [if_neg hd] at h ⊢
    by_cases hc : (idx.faiss.isSome && idx.pkl.isSome && !ra.rebuild_index) = true
    · rw [if_pos hc] at h ⊢
      cases h1 : env.loadLocal with
      | ok vs => simp only [h1]; rfl
      | error e =>
        simp only [h1] at h ⊢
        exact buildFresh_ok_vectorstore env ra idx documents true h
    · rw [if_neg hc] at h ⊢
      exact buildFresh_ok_vectorstore env ra idx documents false h

theorem buildFresh_spec (env : Env) (ra : RA) (idx : IndexDir)
    (documents : List Document) (attempted : Bool) :
    ((buildFresh env ra idx documents attempted).attemptedLoad = attempted) ∧
    ((buildFresh env ra idx documents attempted).builtFresh = true) ∧
    (∀ vs, env.fromDocuments (env.split documents) = .ok vs →
      (buildFresh env ra idx documents attempted).ra.vectorstore = some vs ∧
      (env.saveLocal = .ok () →
        (buildFresh env ra idx documents attempted).idx = ⟨some vs, some vs⟩ ∧
        (buildFresh env ra idx documents attempted).result = .ok ())) := by
  unfold buildFresh
  cases h1 : env.fromDocuments (env.split documents) with
  | error e =>
    refine ⟨rfl, rfl, fun vs hvs => ?_⟩
    exact Except.noConfusion hvs
  | ok vs0 =>
    refine ⟨?_, ?_, fun vs hvs => ?_⟩
    · cases h2 : env.saveLocal with
      | error e2 => rfl
      | ok u => rfl
    · cases h2 : env.saveLocal with
      | error e2 => rfl
      | ok u => rfl
    · obtain rfl : vs0 = vs := Except.ok.inj hvs
      cases h2 : env.saveLocal with
      | error e2 =>
        exact ⟨rfl, fun hs => Except.noConfusion hs⟩
      | ok u => exact ⟨rfl, fun _ => ⟨rfl, rfl⟩⟩

/-! ## Claim theorems -/

/-- C3: building from an empty corpus fails with the empty-corpus error
(`ValueError("没有文档可以构建向量库")`) and is atomic: the assistant state
(including the in-memory vector store) and both persisted index files
are returned unchanged, no load is attempted and no build is run. -/
theorem build_empty_corpus_atomic (env : Env) (ra : RA) (idx : IndexDir) :
    build_or_load_vectorstore env ra idx []
      = ⟨.error "没有文档可以构建向量库", ra, idx, false, false⟩ := by
  rfl

/-- C8: `ensure_ready` restores the engine's `rebuild_index`
configuration field on every path (success, no-documents failure, or
initialization failure), so a forced rebuild is scoped to the single
invocation. -/
theorem ensureBuild_rebuild_flag (prev : Bool) (b : BuildOutcome) :
    (ensureBuild prev b).ra.rebuild_index = prev := by
  unfold ensureBuild
  cases hb : b.result with
  | error e => rfl
  | ok u =>
    cases hs : setup_qa_chain b.ra with
    | error e => rfl
    | ok ra3 => rfl

theorem ensureReload_rebuild_flag (env : Env) (p : RA × List Document) (idx : IndexDir)
    (force_rebuild : Bool) :
    (ensureReload env p idx force_rebuild).ra.rebuild_index = p.1.rebuild_index := by
  unfold ensureReload
  by_cases hd : p.2 = []
  · rw [if_pos hd]
  · rw [if_neg hd]
    exact ensureBuild_rebuild_flag _ _

theorem ensure_ready_preserves_rebuild_flag (env : Env) (ra : RA) (idx : IndexDir)
    (force_rebuild : Bool) :
    (ensure_ready env ra idx force_rebuild).ra.rebuild_index = ra.rebuild_index := by
  unfold ensure_ready
  by_cases hsc : (!force_rebuild && ra.qa_chain.isSome && ra.vectorstore.isSome &&
      !ra.documents_data.isEmpty) = true
  · rw [if_pos hsc]
  · rw [if_neg hsc]
    exact (ensureReload_rebuild_flag env _ idx force_rebuild).trans rfl

/-- C4: for a non-empty document list, `build_or_load_vectorstore`
attempts `FAISS.load_local` exactly when both persisted index files
exist and the rebuild flag is off; it runs the fresh build path exactly
when there was no successful load attempt; a successful load replaces
only the in-memory store and succeeds; and on the fresh path the
rebuild wholesale replaces the in-memory store and, when persistence
succeeds, both index files — a failed or forced load is superseded by
the rebuild, never merged with it. -/
theorem build_or_load_fallback (env : Env) (ra : RA) (idx : IndexDir)
    (documents : List Document) (h : documents ≠ []) :
    ((build_or_load_vectorstore env ra idx documents).attemptedLoad
        = (idx.faiss.isSome && idx.pkl.isSome && !ra.rebuild_index)) ∧
    ((build_or_load_vectorstore env ra idx documents).builtFresh
        = !((build_or_load_vectorstore env ra idx documents).attemptedLoad
              && loadOk env.loadLocal)) ∧
    ((build_or_load_vectorstore env ra idx documents).builtFresh = false →
        ∃ vs, env.loadLocal = .ok vs ∧
          (build_or_load_vectorstore env ra idx documents).ra
              = { ra with vectorstore := some vs } ∧
          (build_or_load_vectorstore env ra idx documents).idx = idx ∧
          (build_or_load_vectorstore env ra idx documents).result = .ok ()) ∧
    ((build_or_load_vectorstore env ra idx documents).builtFresh = true →
        ∀ vs, env.fromDocuments (env.split documents) = .ok vs →
          (build_or_load_vectorstore env ra idx documents).ra.vectorstore = some vs ∧
          (env.saveLocal = .ok () →
            (build_or_load_vectorstore env ra idx documents).idx = ⟨some vs, some vs⟩ ∧
            (build_or_load_vectorstore env ra idx documents).result = .ok ())) := by
  unfold build_or_load_vectorstore
  rw [if_neg h]
  by_cases hc : (idx.faiss.isSome && idx.pkl.isSome && !ra.rebuild_index) = true
  · rw [if_pos hc, hc]
    cases hl : env.loadLocal with
    | ok vs =>
      refine ⟨rfl, by simp [loadOk], fun _ => ⟨vs, rfl, rfl, rfl, rfl⟩, fun hbf => ?_⟩
      exact absurd hbf (by simp)
    | error e =>
      obtain ⟨ha, hb, hv⟩ := buildFresh_spec env ra idx documents true
      refine ⟨ha, ?_, fun hbf => ?_, fun _ => hv⟩
      · rw [hb, ha]; simp [loadOk]
      · rw [hb] at hbf; exact absurd hbf (by simp)
  · rw [if_neg hc]
    obtain ⟨ha, hb, hv⟩ := buildFresh_spec env ra idx documents false
    have hcf : (idx.faiss.isSome && idx.pkl.isSome && !ra.rebuild_index) = false :=
      Bool.eq_false_iff.mpr hc
    refine ⟨ha.trans hcf.symm, ?_, fun hbf => ?_, fun _ => hv⟩
    · rw [hb, ha]; simp
    · rw [hb] at hbf; exact absurd hbf (by simp)

/-- C4 witness: with both index files present, no forced rebuild and a
failing `load_local`, the call attempts the load and falls through to a
fresh build that replaces the store and both persisted files. -/
theorem build_or_load_fallback_witness :
    ((build_or_load_vectorstore { env0 with loadLocal := .error "corrupt" } raEmpty idxBuilt
        [.malformed]).attemptedLoad = true) ∧
    ((build_or_load_vectorstore { env0 with loadLocal := .error "corrupt" } raEmpty idxBuilt
        [.malformed]).builtFresh = true) ∧
    ((build_or_load_vectorstore { env0 with loadLocal := .error "corrupt" } raEmpty idxBuilt
        [.malformed]).ra.vectorstore = some ⟨[.malformed]⟩) ∧
    ((build_or_load_vectorstore { env0 with loadLocal := .error "corrupt" } raEmpty idxBuilt
        [.malformed]).idx = ⟨some ⟨[.malformed]⟩, some ⟨[.malformed]⟩⟩) := by
  obtain ⟨h1, h2, h3, h4⟩ := build_or_load_fallback { env0 with loadLocal := .error "corrupt" }
    raEmpty idxBuilt [.malformed] (by simp)
  refine ⟨h1.trans (by decide), h2.trans ?_, ?_, ?_⟩
  · rw [h1]; decide
  · exact (h4 (h2.trans (by rw [h1]; decide)) ⟨[.malformed]⟩ rfl).1
  · exact ((h4 (h2.trans (by rw [h1]; decide)) ⟨[.malformed]⟩ rfl).2 rfl).1

/-- C5: `ask` always returns a structured result dictionary rather than
raising: the not-initialized error when no QA chain is configured, an
error wrapping the exception detail when the chain invocation raises,
and otherwise the answer together with the retrieved source chunks. -/
theorem ask_structured_result (env : Env) (ra : RA) (question : String) :
    (ra.qa_chain = none → ask env ra question = .error "QA系统未初始化") ∧
    (ra.qa_chain.isSome → ∀ e, env.invoke question = .error e →
        ask env ra question = .error ("处理问题时出错: " ++ e)) ∧
    (ra.qa_chain.isSome → ∀ a sds, env.invoke question = .ok (a, sds) →
        ask env ra question = .ok a sds) := by
  unfold ask
  refine ⟨fun h => by rw [h], fun hq e he => ?_, fun hq a sds he => ?_⟩
  · obtain ⟨c, hc⟩ := Option.isSome_iff_exists.mp hq
    rw [hc, he]
  · obtain ⟨c, hc⟩ := Option.isSome_iff_exists.mp hq
    rw [hc, he]

/-- C5 witness: with a configured chain and a failing invocation, `ask`
returns the wrapped structured error. -/
theorem ask_structured_result_witness :
    ask env0 raReady "q" = .error "处理问题时出错: down" :=
  (ask_structured_result env0 raReady "q").2.1 (by decide) "down" rfl

/-- C7: with fewer than two registered documents `compare_documents`
returns the sentinel guidance string — a non-error value whose result
does not depend on the generation environment, i.e. the QA pipeline is
not consulted; with two or more it builds the meta-question over the
registry's document names and delegates to `ask`. -/
theorem compare_documents_contract (env : Env) (ra : RA) :
    (ra.documents_data.length < 2 →
        compare_documents env ra = .sentinel "需要至少2个文档才能进行比较") ∧
    (∀ env2, ra.documents_data.length < 2 →
        compare_documents env ra = compare_documents env2 ra) ∧
    (2 ≤ ra.documents_data.length →
        compare_documents env ra
          = .asked (ask env ra (compareQuestion (ra.documents_data.map Prod.fst)))) := by
  unfold compare_documents
  refine ⟨fun h => by rw [if_pos h], fun env2 h => by rw [if_pos h, if_pos h],
    fun h => by rw [if_neg (by omega)]⟩

/-- C7 witness: one registered document yields the sentinel; two
registered documents delegate to `ask` on the meta-question. -/
theorem compare_documents_contract_witness :
    compare_documents env0 raOne = .sentinel "需要至少2个文档才能进行比较" ∧
    compare_documents env0 raTwo
      = .asked (ask env0 raTwo (compareQuestion ["a.pdf", "b.pdf"])) :=
  ⟨(compare_documents_contract env0 raOne).1 (by decide),
   (compare_documents_contract env0 raTwo).2.2 (by decide)⟩

/-! ## Citation extraction lemmas -/

theorem stableDedup_nil : stableDedup [] = [] := by
  rw [stableDedup]

theorem stableDedup_cons (x : String) (xs : List String) :
    stableDedup (x :: xs) = x :: stableDedup (xs.filter (fun y => y ≠ x)) := by
  rw [stableDedup]

theorem stableDedup_sublist : ∀ l : List String, (stableDedup l).Sublist l
  | [] => by rw [stableDedup_nil]
  | x :: xs => by
    rw [stableDedup_cons]
    exact List.Sublist.cons₂ x ((stableDedup_sublist _).trans (List.filter_sublist xs))
termination_by l => l.length
decreasing_by
  simp only [List.length_cons]
  exact Nat.lt_succ_of_le (List.length_filter_le _ _)

theorem stableDedup_nodup : ∀ l : List String, (stableDedup l).Nodup
  | [] => by rw [stableDedup_nil]; exact List.nodup_nil
  | x :: xs => by
    rw [stableDedup_cons]
    refine List.nodup_cons.mpr ⟨fun hmem => ?_, stableDedup_nodup _⟩
    have hx := (stableDedup_sublist _).subset hmem
    rw [List.mem_filter] at hx
    simp at hx
termination_by l => l.length
decreasing_by
  simp only [List.length_cons]
  exact Nat.lt_succ_of_le (List.length_filter_le _ _)

theorem mem_stableDedup : ∀ (l : List String) (s : String), s ∈ stableDedup l ↔ s ∈ l
  | [], s => by rw [stableDedup_nil]
  | x :: xs, s => by
    rw [stableDedup_cons]
    by_cases hs : s = x
    · subst hs; simp
    · rw [List.mem_cons, List.mem_cons,
        mem_stableDedup (xs.filter (fun y => y ≠ x)) s, List.mem_filter]
      simp [hs]
termination_by l => l.length
decreasing_by
  simp only [List.length_cons]
  exact Nat.lt_succ_of_le (List.length_filter_le _ _)

theorem dedupLoop_eq_stableDedup :
    ∀ (l seen : List String),
      dedupLoop seen l = stableDedup (l.filter (fun s => s ∉ seen))
  | [], seen => by rw [List.filter_nil, stableDedup_nil]; rfl
  | s :: rest, seen => by
    unfold dedupLoop
    by_cases hs : s ∈ seen
    · rw [if_pos hs, dedupLoop_eq_stableDedup rest seen]
      congr 1
      simp [List.filter_cons, hs]
    · rw [if_neg hs, dedupLoop_eq_stableDedup rest (s :: seen)]
      have hfc : (s :: rest).filter (fun t => t ∉ seen)
          = s :: rest.filter (fun t => t ∉ seen) := by
        simp [List.filter_cons, hs]
      have hAB : rest.filter (fun t => t ∉ (s :: seen))
          = (rest.filter (fun t => t ∉ seen)).filter (fun y => y ≠ s) := by
        rw [List.filter_filter]
        apply List.filter_congr
        intro y _
        by_cases h1 : y = s <;> by_cases h2 : y ∈ seen <;> simp [h1, h2]
      rw [hfc, stableDedup_cons, hAB]

theorem extract_sources_eq (sds : List Document) :
    extract_sources sds = stableDedup (sds.filterMap renderChunk) := by
  unfold extract_sources
  by_cases h : sds = []
  · rw [if_pos h, h]
    simp [stableDedup_nil]
  · rw [if_neg h, dedupLoop_eq_stableDedup]
    congr 1
    apply List.filter_eq_self.mpr
    simp

theorem renderChunk_valid_isSome (m : Metadata) : (renderChunk (.valid m)).isSome := by
  cases h : pageOf m <;> simp [renderChunk, h]

theorem extract_sources_single (m : Metadata) (r : String)
    (h : renderChunk (.valid m) = some r) :
    extract_sources [.valid m] = [r] := by
  unfold extract_sources
  rw [if_neg (by simp)]
  rw [List.filterMap_cons, h]
  rfl

/-- C6: `_extract_sources` is a stable, format-preserving dedup: its
output has no duplicate display strings; it equals the stable
first-occurrence dedup of the rendered input, is a sublist of it
(order preserved) with the same members; a malformed chunk is skipped
without affecting the rest; a chunk with 0-indexed page metadata `p`
renders as `source_file (p.p+1)` and one without page metadata renders
as just the source file name. -/
theorem extract_sources_citations (sds : List Document) :
    ((extract_sources sds).Nodup) ∧
    (extract_sources sds = stableDedup (sds.filterMap renderChunk)) ∧
    ((extract_sources sds).Sublist (sds.filterMap renderChunk)) ∧
    (∀ s, s ∈ extract_sources sds ↔ s ∈ sds.filterMap renderChunk) ∧
    (extract_sources (Document.malformed :: sds) = extract_sources sds) ∧
    (∀ (m : Metadata) (fn : String) (p : Int), m.source_file = some fn → fn ≠ "" →
        m.page = some p →
        renderChunk (.valid m) = some (fn ++ " (p." ++ toString (p + 1) ++ ")")) ∧
    (∀ (m : Metadata) (fn : String), m.source_file = some fn → fn ≠ "" →
        m.page = none → m.page_number = none → renderChunk (.valid m) = some fn) := by
  refine ⟨?_, extract_sources_eq sds, ?_, ?_, ?_, ?_, ?_⟩
  · rw [extract_sources_eq]; exact stableDedup_nodup _
  · rw [extract_sources_eq]; exact stableDedup_sublist _
  · intro s; rw [extract_sources_eq]; exact mem_stableDedup _ s
  · rw [extract_sources_eq, extract_sources_eq, List.filterMap_cons]
    rfl
  · intro m fn p hs hfn hp
    simp only [renderChunk, pageOf, srcOf, truthyOr, hp, hs]
    simp [hfn]
  · intro m fn hs hfn hp hpn
    simp only [renderChunk, pageOf, srcOf, truthyOr, hp, hpn, hs]
    simp [hfn]

/-- C6 witness: a chunk with `source_file = "A"` and page 1 renders as
`A (p.2)`; one with no page metadata renders as `B`. -/
theorem extract_sources_citations_witness :
    renderChunk (.valid ⟨some "A", none, some 1, none⟩) = some "A (p.2)" ∧
    renderChunk (.valid ⟨some "B", none, none, none⟩) = some "B" :=
  ⟨((extract_sources_citations []).2.2.2.2.2.1
      ⟨some "A", none, some 1, none⟩ "A" 1 rfl (by decide) rfl).trans (by decide),
   (extract_sources_citations []).2.2.2.2.2.2
      ⟨some "B", none, none, none⟩ "B" rfl (by decide) rfl rfl⟩

/-- C10: `_extract_sources` normalizes loader metadata variants: when
`page` is absent it falls back to `page_number`, and when `source_file`
is absent it falls back to `source` and then to the fixed
unknown-source placeholder, so every well-formed chunk still yields
exactly one citation rather than being dropped. -/
theorem extract_sources_metadata_fallbacks :
    (∀ (m : Metadata) (s : String) (p : Int),
        m.source_file = none → m.source = some s → s ≠ "" →
        m.page = none → m.page_number = some p →
        extract_sources [.valid m] = [s ++ " (p." ++ toString (p + 1) ++ ")"]) ∧
    (∀ (m : Metadata), m.source_file = none → m.source = none →
        m.page = none → m.page_number = none →
        extract_sources [.valid m] = ["未知来源"]) ∧
    (∀ (m : Metadata), (extract_sources [.valid m]).length = 1) := by
  refine ⟨fun m s p h1 h2 h3 h4 h5 => ?_, fun m h1 h2 h3 h4 => ?_, fun m => ?_⟩
  · apply extract_sources_single
    simp only [renderChunk, pageOf, srcOf, truthyOr, h4, h5, h1, h2]
    simp [h3]
  · apply extract_sources_single
    simp only [renderChunk, pageOf, srcOf, truthyOr, h3, h4, h1, h2]
  · obtain ⟨r, hr⟩ := Option.isSome_iff_exists.mp (renderChunk_valid_isSome m)
    rw [extract_sources_single m r hr]
    rfl

/-- C10 witness: a chunk whose metadata only has `source` and
`page_number` still yields a citation built from those fields. -/
theorem extract_sources_metadata_fallbacks_witness :
    extract_sources [.valid ⟨none, some "doc.pdf", none, some 0⟩] = ["doc.pdf (p.1)"] :=
  (extract_sources_metadata_fallbacks.1 ⟨none, some "doc.pdf", none, some 0⟩ "doc.pdf" 0
      rfl rfl (by decide) rfl rfl).trans (by decide)

/-! ## Registry reload lemmas -/

theorem dictInsert_ne_nil (d : List (String × List Document)) (k : String)
    (v : List Document) : dictInsert d k v ≠ [] := by
  unfold dictInsert
  by_cases h : d.any (fun p => p.1 = k) = true
  · rw [if_pos h]
    cases d with
    | nil => simp at h
    | cons a t => simp
  · rw [if_neg h]
    simp

theorem dictInsert_fresh (d : List (String × List Document)) (k : String)
    (v : List Document) (h : ∀ e ∈ d, e.1 ≠ k) :
    dictInsert d k v = d ++ [(k, v)] := by
  unfold dictInsert
  rw [if_neg]
  intro hany
  rw [List.any_eq_true] at hany
  obtain ⟨e, he, hek⟩ := hany
  exact h e he (of_decide_eq_true hek)

theorem loadFold_fst_ne_nil (files : List (String × Except String (List Metadata)))
    (acc : List (String × List Document) × List Document) (h : acc.1 ≠ []) :
    (files.foldl loadFold acc).1 ≠ [] := by
  induction files generalizing acc with
  | nil => exact h
  | cons f rest ih =>
    rw [List.foldl_cons]
    apply ih
    unfold loadFold
    cases hf : f.2 with
    | error e => exact h
    | ok pages => exact dictInsert_ne_nil _ _ _

theorem loadFold_fst_nil (files : List (String × Except String (List Metadata)))
    (acc : List (String × List Document) × List Document)
    (h : (files.foldl loadFold acc).1 = []) :
    acc.1 = [] ∧ (files.foldl loadFold acc).2 = acc.2 := by
  induction files generalizing acc with
  | nil => exact ⟨h, rfl⟩
  | cons f rest ih =>
    rw [List.foldl_cons] at h ⊢
    cases hf : f.2 with
    | error e =>
      have hstep : loadFold acc f = acc := by unfold loadFold; rw [hf]
      rw [hstep] at h ⊢
      exact ih acc h
    | ok pages =>
      exfalso
      have hne : (loadFold acc f).1 ≠ [] := by
        unfold loadFold; rw [hf]; exact dictInsert_ne_nil _ _ _
      exact loadFold_fst_ne_nil rest _ hne h

theorem load_documents_registry_nonempty (env : Env) (ra : RA)
    (h : (load_documents env ra).2 ≠ []) :
    (load_documents env ra).1.documents_data ≠ [] := by
  intro hreg
  exact h ((loadFold_fst_nil env.pdfFiles (ra.documents_data, []) hreg).2)

theorem loadFold_append :
    ∀ (files : List (String × Except String (List Metadata)))
      (acc : List (String × List Document) × List Document),
      (files.map Prod.fst).Nodup →
      (∀ n ∈ files.map Prod.fst, ∀ e ∈ acc.1, e.1 ≠ n) →
      files.foldl loadFold acc
        = (acc.1 ++ files.filterMap loadedEntry,
           acc.2 ++ ((files.filterMap loadedEntry).map Prod.snd).flatten)
  | [], acc, _, _ => by simp
  | f :: rest, acc, hnd, hfresh => by
    rw [List.foldl_cons]
    have hnd' : (rest.map Prod.fst).Nodup := (List.nodup_cons.mp (by simpa using hnd)).2
    have hhead : f.1 ∉ rest.map Prod.fst := (List.nodup_cons.mp (by simpa using hnd)).1
    cases hf : f.2 with
    | error e =>
      have hstep : loadFold acc f = acc := by unfold loadFold; rw [hf]
      have hfresh' : ∀ n ∈ rest.map Prod.fst, ∀ e ∈ acc.1, e.1 ≠ n :=
        fun n hn => hfresh n (by simp [hn])
      have hle : loadedEntry f = none := by unfold loadedEntry; rw [hf]
      rw [hstep, loadFold_append rest acc hnd' hfresh']
      simp [List.filterMap_cons, hle]
    | ok pages =>
      have hstep : loadFold acc f
          = (dictInsert acc.1 f.1
              (pages.map (fun m => Document.valid { m with source_file := some f.1 })),
             acc.2 ++ pages.map (fun m => Document.valid { m with source_file := some f.1 })) := by
        unfold loadFold; rw [hf]
      have hins : dictInsert acc.1 f.1
            (pages.map (fun m => Document.valid { m with source_file := some f.1 }))
          = acc.1 ++ [(f.1, pages.map (fun m => Document.valid { m with source_file := some f.1 }))] :=
        dictInsert_fresh _ _ _ (fun e he => hfresh f.1 (by simp) e he)
      have hfresh' : ∀ n ∈ rest.map Prod.fst,
          ∀ e ∈ acc.1 ++ [(f.1, pages.map (fun m => Document.valid { m with source_file := some f.1 }))],
          e.1 ≠ n := by
        intro n hn e he
        rcases List.mem_append.mp he with h1 | h2
        · exact hfresh n (by simp [hn]) e h1
        · rw [List.mem_singleton] at h2
          subst h2
          exact fun heq => hhead (heq ▸ hn)
      have hle : loadedEntry f
          = some (f.1, pages.map (fun m => Document.valid { m with source_file := some f.1 })) := by
        unfold loadedEntry; rw [hf]
      rw [hstep, hins, loadFold_append rest _ hnd' hfresh']
      simp [List.filterMap_cons, hle, List.append_assoc]

theorem load_clear_spec (env : Env) (ra : RA)
    (h : (env.pdfFiles.map Prod.fst).Nodup) :
    load_documents env { ra with documents_data := [] }
      = ({ ra with documents_data := env.pdfFiles.filterMap loadedEntry },
         ((env.pdfFiles.filterMap loadedEntry).map Prod.snd).flatten) := by
  unfold load_documents
  rw [loadFold_append env.pdfFiles ([], []) h (by simp)]
  simp

theorem map_fst_filterMap_loadedEntry :
    ∀ files : List (String × Except String (List Metadata)),
      (files.filterMap loadedEntry).map Prod.fst
        = files.filterMap (fun f => match f.2 with
            | .ok _ => some f.1
            | .error _ => none)
  | [] => rfl
  | f :: rest => by
    cases hf : f.2 with
    | error e =>
      have h1 : loadedEntry f = none := by unfold loadedEntry; rw [hf]
      simp [List.filterMap_cons, h1, hf, map_fst_filterMap_loadedEntry rest]
    | ok pages =>
      have h1 : loadedEntry f
          = some (f.1, pages.map (fun m => Document.valid { m with source_file := some f.1 })) := by
        unfold loadedEntry; rw [hf]
      simp [List.filterMap_cons, h1, hf, map_fst_filterMap_loadedEntry rest]

/-- C2 counterexample: `load_documents` by itself performs no clear:
starting from a registry holding `stale.pdf` (a file absent from disk)
with the disk holding only `a.pdf`, after `load_documents` the stale
key survives, so the keys are not exactly the currently loaded files. -/
theorem load_documents_stale_survives_cex :
    "stale.pdf" ∈ (load_documents envOneFile raStale).1.documents_data.map Prod.fst ∧
    (load_documents envOneFile raStale).1.documents_data.map Prod.fst ≠ ["a.pdf"] := by
  decide

/-- C2 (amended): the reload sequence the engine actually performs —
clearing `documents_data` and then running `load_documents`, as
`ensure_ready` and the lazy `list_documents` path do — is a full
replacement: the registry afterwards consists exactly of the
successfully loaded files present on disk, in listing order, with no
entry surviving from before; `load_documents` alone merges into the
registry it starts from. -/
theorem load_documents_after_clear (env : Env) (ra : RA)
    (h : (env.pdfFiles.map Prod.fst).Nodup) :
    ((load_documents env { ra with documents_data := [] }).1.documents_data
        = env.pdfFiles.filterMap loadedEntry) ∧
    ((load_documents env { ra with documents_data := [] }).1.documents_data.map Prod.fst
        = env.pdfFiles.filterMap (fun f => match f.2 with
            | .ok _ => some f.1
            | .error _ => none)) := by
  have hs := load_clear_spec env ra h
  have hdd : (load_documents env { ra with documents_data := [] }).1.documents_data
      = env.pdfFiles.filterMap loadedEntry :=
    congrArg (fun q => q.1.documents_data) hs
  exact ⟨hdd, by rw [hdd, map_fst_filterMap_loadedEntry]⟩

/-- C2 witness: after a clear-then-load over a disk holding exactly
`a.pdf`, the registry keys are exactly `a.pdf` (the stale entry is
gone). -/
theorem load_documents_after_clear_witness :
    (load_documents envOneFile
        { raStale with documents_data := [] }).1.documents_data.map Prod.fst
      = ["a.pdf"] :=
  ((load_documents_after_clear envOneFile raStale (by decide)).2).trans (by decide)

/-! ## Readiness lemmas -/

theorem setup_qa_chain_ok (ra : RA) (ra3 : RA) (h : setup_qa_chain ra = .ok ra3) :
    ra3.documents_data = ra.documents_data ∧ ra3.vectorstore = ra.vectorstore ∧
    ra3.qa_chain.isSome := by
  unfold setup_qa_chain at h
  cases hv : ra.vectorstore with
  | none => rw [hv] at h; exact Except.noConfusion h
  | some vs =>
    rw [hv] at h
    obtain rfl := Except.ok.inj h
    exact ⟨rfl, rfl, rfl⟩

theorem ensureBuild_ok (prev : Bool) (b : BuildOutcome)
    (h : (ensureBuild prev b).ok = true) :
    b.result = .ok () ∧
    (ensureBuild prev b).ra.qa_chain.isSome ∧
    (ensureBuild prev b).ra.vectorstore = b.ra.vectorstore ∧
    (ensureBuild prev b).ra.documents_data = b.ra.documents_data := by
  unfold ensureBuild at h ⊢
  cases hr : b.result with
  | error e => rw [hr] at h; simp at h
  | ok u =>
    cases u
    rw [hr] at h
    cases hs : setup_qa_chain b.ra with
    | error e => rw [hs] at h; simp at h
    | ok ra3 =>
      obtain ⟨hdd, hvs, hqa⟩ := setup_qa_chain_ok b.ra ra3 hs
      exact ⟨rfl, hqa, hvs, hdd⟩

theorem ensureBuild_fields (prev : Bool) (b : BuildOutcome) :
    (ensureBuild prev b).ra.documents_data = b.ra.documents_data ∧
    (ensureBuild prev b).log.ranLoad = true := by
  unfold ensureBuild
  cases hr : b.result with
  | error e => exact ⟨rfl, rfl⟩
  | ok u =>
    cases hs : setup_qa_chain b.ra with
    | error e => exact ⟨rfl, rfl⟩
    | ok ra3 => exact ⟨(setup_qa_chain_ok b.ra ra3 hs).1, rfl⟩

theorem ensureReload_fields (env : Env) (p : RA × List Document) (idx : IndexDir)
    (force_rebuild : Bool) :
    (ensureReload env p idx force_rebuild).ra.documents_data = p.1.documents_data ∧
    (ensureReload env p idx force_rebuild).log.ranLoad = true := by
  unfold ensureReload
  by_cases hd : p.2 = []
  · rw [if_pos hd]; exact ⟨rfl, rfl⟩
  · rw [if_neg hd]
    obtain ⟨h1, h2⟩ := ensureBuild_fields p.1.rebuild_index
      (build_or_load_vectorstore env { p.1 with rebuild_index := force_rebuild } idx p.2)
    refine ⟨h1.trans ?_, h2⟩
    exact (congrArg RA.documents_data
      (bol_frame env { p.1 with rebuild_index := force_rebuild } idx p.2)).trans rfl

theorem ensureReload_ok (env : Env) (p : RA × List Document) (idx : IndexDir)
    (force_rebuild : Bool) (h : (ensureReload env p idx force_rebuild).ok = true) :
    (ensureReload env p idx force_rebuild).ra.qa_chain.isSome ∧
    (ensureReload env p idx force_rebuild).ra.vectorstore.isSome ∧
    (ensureReload env p idx force_rebuild).ra.documents_data = p.1.documents_data ∧
    p.2 ≠ [] := by
  unfold ensureReload at h ⊢
  by_cases hd : p.2 = []
  · rw [if_pos hd] at h; simp at h
  · rw [if_neg hd] at h ⊢
    obtain ⟨hres, hqa, hvs, hdd⟩ := ensureBuild_ok p.1.rebuild_index _ h
    refine ⟨hqa, ?_, ?_, hd⟩
    · rw [hvs]
      exact bol_ok_vectorstore env _ idx p.2 hres
    · rw [hdd]
      exact (congrArg RA.documents_data
        (bol_frame env { p.1 with rebuild_index := force_rebuild } idx p.2)).trans rfl

theorem ensure_ready_no_shortcircuit (env : Env) (ra : RA) (idx : IndexDir)
    (force_rebuild : Bool)
    (hsc : (!force_rebuild && ra.qa_chain.isSome && ra.vectorstore.isSome &&
        !ra.documents_data.isEmpty) = false) :
    ensure_ready env ra idx force_rebuild
      = ensureReload env (load_documents env { ra with documents_data := [] }) idx
          force_rebuild := by
  unfold ensure_ready
  rw [if_neg (by simp [hsc])]

theorem ensure_ready_ok_ready (env : Env) (ra : RA) (idx : IndexDir) (force_rebuild : Bool)
    (h : (ensure_ready env ra idx force_rebuild).ok = true) :
    (ensure_ready env ra idx force_rebuild).ra.qa_chain.isSome ∧
    (ensure_ready env ra idx force_rebuild).ra.vectorstore.isSome ∧
    (ensure_ready env ra idx force_rebuild).ra.documents_data ≠ [] := by
  unfold ensure_ready at h ⊢
  by_cases hsc : (!force_rebuild && ra.qa_chain.isSome && ra.vectorstore.isSome &&
      !ra.documents_data.isEmpty) = true
  · rw [if_pos hsc] at h ⊢
    have hsc' := hsc
    simp only [Bool.and_eq_true] at hsc'
    refine ⟨hsc'.1.1.2, hsc'.1.2, ?_⟩
    have h3 := hsc'.2
    intro hnil
    rw [hnil] at h3
    simp at h3
  · rw [if_neg hsc] at h ⊢
    obtain ⟨hqa, hvs, hdd, hne⟩ := ensureReload_ok env _ idx force_rebuild h
    refine ⟨hqa, hvs, ?_⟩
    rw [hdd]
    exact load_documents_registry_nonempty env _ hne

/-- C9 counterexample: with one PDF on disk that loads successfully but
yields zero pages, a non-short-circuit `ensure_ready` call fails with
the no-documents message yet leaves the registry non-empty — against
the claim that the registry is left empty on that failure. -/
theorem ensure_ready_zero_page_cex :
    (ensure_ready envZeroPage raEmpty idx0 false).ok = false ∧
    (ensure_ready envZeroPage raEmpty idx0 false).reason = some "暂无文档，请先上传 PDF。" ∧
    (ensure_ready envZeroPage raEmpty idx0 false).ra.documents_data ≠ [] := by
  decide

/-- C9 (amended): every `ensure_ready` call that does not take the
short-circuit path first clears the registry and reloads it from disk:
afterwards the registry consists exactly of the currently present,
successfully loaded files (stale entries purged); when the reload
yields no pages the call returns the no-documents failure and the
registry then holds exactly the successfully loaded files, each with an
empty page list — so it is empty precisely when no present file loads
successfully, but non-empty if some file loads with zero pages. -/
theorem ensure_ready_reloads (env : Env) (ra : RA) (idx : IndexDir) (force_rebuild : Bool)
    (hsc : (!force_rebuild && ra.qa_chain.isSome && ra.vectorstore.isSome &&
        !ra.documents_data.isEmpty) = false)
    (hnodup : (env.pdfFiles.map Prod.fst).Nodup) :
    ((ensure_ready env ra idx force_rebuild).log.ranLoad = true) ∧
    ((ensure_ready env ra idx force_rebuild).ra.documents_data
        = env.pdfFiles.filterMap loadedEntry) ∧
    ((load_documents env { ra with documents_data := [] }).2 = [] →
        (ensure_ready env ra idx force_rebuild).ok = false ∧
        (ensure_ready env ra idx force_rebuild).reason = some "暂无文档，请先上传 PDF。" ∧
        ∀ e ∈ (ensure_ready env ra idx force_rebuild).ra.documents_data,
          e.2 = ([] : List Document)) := by
  have he := ensure_ready_no_shortcircuit env ra idx force_rebuild hsc
  obtain ⟨h1, h2⟩ := ensureReload_fields env
    (load_documents env { ra with documents_data := [] }) idx force_rebuild
  have hls := load_clear_spec env ra hnodup
  have hdd : (load_documents env { ra with documents_data := [] }).1.documents_data
      = env.pdfFiles.filterMap loadedEntry :=
    congrArg (fun q => q.1.documents_data) hls
  refine ⟨?_, ?_, ?_⟩
  · rw [he]; exact h2
  · rw [he]; exact h1.trans hdd
  · intro hd
    rw [he]
    unfold ensureReload
    rw [if_pos hd]
    refine ⟨rfl, rfl, ?_⟩
    intro e heMem
    have heMem' : e ∈ env.pdfFiles.filterMap loadedEntry := by
      rw [← hdd]; exact heMem
    have hjoin : ((env.pdfFiles.filterMap loadedEntry).map Prod.snd).flatten = [] :=
      ((congrArg Prod.snd hls).symm.trans hd : _)
    rw [List.flatten_eq_nil_iff] at hjoin
    exact hjoin e.2 (List.mem_map_of_mem Prod.snd heMem')

/-- C9 witness: forcing a rebuild over a disk with one failing PDF and
one good one-page PDF, starting from a stale registry, leaves the
registry holding exactly the good file. -/
theorem ensure_ready_reloads_witness :
    (ensure_ready envMix raStale idx0 true).ra.documents_data
      = [("good.pdf", [.valid ⟨some "good.pdf", none, none, none⟩])] :=
  ((ensure_ready_reloads envMix raStale idx0 true (by decide) (by decide)).2.1).trans
    (by decide)

/-- C1: with the QA chain configured, the vector store set and a
non-empty registry, `ensure_ready(false)` short-circuits: it returns
success with no reason immediately, performs no document load, no index
load attempt and no build, and leaves the assistant state (registry,
vector store, QA chain) and the index directory unchanged; hence after
any successful `ensure_ready(false)` the next call is such a no-op, so
two successive calls perform the expensive work at most once. -/
theorem ensure_ready_memoized :
    (∀ (env : Env) (ra : RA) (idx : IndexDir),
        ra.qa_chain.isSome → ra.vectorstore.isSome → ra.documents_data ≠ [] →
        ensure_ready env ra idx false = ⟨true, none, ra, idx, noWork⟩) ∧
    (∀ (env env2 : Env) (ra : RA) (idx : IndexDir),
        (ensure_ready env ra idx false).ok = true →
        ensure_ready env2 (ensure_ready env ra idx false).ra
            (ensure_ready env ra idx false).idx false
          = ⟨true, none, (ensure_ready env ra idx false).ra,
              (ensure_ready env ra idx false).idx, noWork⟩) := by
  have part1 : ∀ (env : Env) (ra : RA) (idx : IndexDir),
      ra.qa_chain.isSome → ra.vectorstore.isSome → ra.documents_data ≠ [] →
      ensure_ready env ra idx false = ⟨true, none, ra, idx, noWork⟩ := by
    intro env ra idx h1 h2 h3
    unfold ensure_ready
    rw [if_pos]
    simp only [Bool.not_false, Bool.true_and, Bool.and_eq_true]
    refine ⟨⟨h1, h2⟩, ?_⟩
    simp [List.isEmpty_iff, h3]
  refine ⟨part1, ?_⟩
  intro env env2 ra idx hok
  obtain ⟨hq, hv, hd⟩ := ensure_ready_ok_ready env ra idx false hok
  exact part1 env2 _ _ hq hv hd

/-- C1 witness: on a ready state the call returns success immediately
with no work and no state change. -/
theorem ensure_ready_memoized_witness :
    ensure_ready env0 raReady idx0 false = ⟨true, none, raReady, idx0, noWork⟩ :=
  ensure_ready_memoized.1 env0 raReady idx0 (by decide) (by decide) (by decide)

end ResearchAssistant
